import Mathlib

/-
  Verification development for DiscTrackSplitter (split.py).

  The program's cue-sheet parser (`parse_cue`) and the three file-resolution
  procedures (`determine_cue`, `determine_wav`, `determine_cover`) are embedded
  shallowly.  Python strings are modelled as `List Char`; Python dicts
  (string-keyed, insertion ordered) as association lists with in-place update;
  the filesystem as a list of (path, is-file) entries whose list order is the
  directory enumeration order.
-/

set_option maxRecDepth 8000

deriving instance DecidableEq for Except

namespace DTS

/-- Python strings are modelled as lists of characters, so that every
operation is structurally recursive and kernel-reducible. -/
abbrev Str := List Char

/-- Convert a Lean string literal to the model type. -/
def str (s : String) : Str := s.data

/-- The whitespace predicate of Python's `str.strip()` (ASCII part). -/
def pyWS (c : Char) : Bool :=
  c == ' ' || c == '\t' || c == '\n' || c == '\r' ||
  c == Char.ofNat 11 || c == Char.ofNat 12

/-- Python `s.strip()`: drop whitespace from both ends. -/
def pyStrip (s : Str) : Str :=
  ((s.dropWhile pyWS).reverse.dropWhile pyWS).reverse

/-- Python `s.split(c)` for a single separator character: `split_cue` uses
`cue_content.split("\n")`. -/
def splitCh (c : Char) : Str → List Str
  | [] => [[]]
  | a :: as =>
    let r := splitCh c as
    if a = c then [] :: r
    else
      match r with
      | h :: t => (a :: h) :: t
      | [] => [[a]]

/-- Python `str.lower()` restricted to ASCII letters (all inputs in the
program's comparisons are ASCII). -/
def asciiLower (s : Str) : Str :=
  s.map fun c => if 'A' ≤ c ∧ c ≤ 'Z' then Char.ofNat (c.toNat + 32) else c

/-- Python `int(...)` on a string of decimal digits. -/
def toNatDigits (s : Str) : Nat :=
  s.foldl (fun a c => a * 10 + (c.toNat - 48)) 0

/-! ## Python dict model: insertion-ordered association list -/

/-- A Python dict with string keys and string values, in insertion order. -/
abbrev Dict := List (Str × Str)

/-- `d[k] = v`: update in place if the key exists, else append at the end
(Python dict assignment semantics). -/
def dset (d : Dict) (k v : Str) : Dict :=
  match d with
  | [] => [(k, v)]
  | (k0, v0) :: rest => if k0 = k then (k0, v) :: rest else (k0, v0) :: dset rest k v

/-- `d.get(k)`: first (only) binding of a key. -/
def dget? (d : Dict) (k : Str) : Option Str :=
  match d with
  | [] => none
  | (k0, v0) :: rest => if k0 = k then some v0 else dget? rest k

/-- `del d[k]` (tolerating an absent key, as the source guards with
`if "TITLE" in track_dict`). -/
def derase (d : Dict) (k : Str) : Dict :=
  match d with
  | [] => []
  | (k0, v0) :: rest => if k0 = k then derase rest k else (k0, v0) :: derase rest k

/-! ## parse_cue: value unquoting -/

/-- `unquote(s, strip)` from `parse_cue` (split.py lines 215-230): strip the
value; if the stripped form is enclosed in a matching pair of double quotes,
drop them (and re-strip when `strip=True`); otherwise return the stripped
value (`strip=True`) or the original value (`strip=False`). -/
def unquote (s : Str) (strip : Bool) : Str :=
  if 2 ≤ (pyStrip s).length ∧ (pyStrip s).head? = some '"' ∧ (pyStrip s).getLast? = some '"' then
    if strip then pyStrip (((pyStrip s).drop 1).dropLast) else ((pyStrip s).drop 1).dropLast
  else
    if strip then pyStrip s else s

/-! ## parse_cue: line classification (the five regexes) -/

/-- Character class `[A-Z_]` of the REM key pattern. -/
def isUpperUnd (c : Char) : Bool := c.isUpper || c == '_'

/-- Regex `^(REM [A-Z_]+) (.+)$`: key is `REM ` plus the name, value is the
rest of the line. -/
def remMatch (line : Str) : Option (Str × Str) :=
  let rest := line.drop 4
  let run := rest.takeWhile isUpperUnd
  match rest.dropWhile isUpperUnd with
  | ' ' :: v => if run = [] ∨ v = [] then none else some (str "REM " ++ run, v)
  | _ => none

/-- Greedy split for `(.+) [A-Z]{3}$` on the reversed remainder. -/
def fileTag3 (rev : Str) : Option Str :=
  match rev with
  | a :: b :: c :: ' ' :: m =>
    if a.isUpper && b.isUpper && c.isUpper && !m.isEmpty then some m.reverse else none
  | _ => none

/-- Greedy split for `(.+) [A-Z]{4}$` on the reversed remainder. -/
def fileTag4 (rev : Str) : Option Str :=
  match rev with
  | a :: b :: c :: d :: ' ' :: m =>
    if a.isUpper && b.isUpper && c.isUpper && d.isUpper && !m.isEmpty then some m.reverse else none
  | _ => none

/-- Regex `^(FILE) (.+) [A-Z]{3,4}$`: greedy `(.+)` leaves the shortest
trailing ` <TAG>` (3 letters preferred over 4); the type tag is dropped. -/
def fileMatch (line : Str) : Option (Str × Str) :=
  let rev := (line.drop 5).reverse
  match fileTag3 rev with
  | some m => some (str "FILE", m)
  | none =>
    match fileTag4 rev with
    | some m => some (str "FILE", m)
    | none => none

/-- Regex `^(TRACK) ([0-9]+) AUDIO$`. -/
def trackMatch (line : Str) : Option (Str × Str) :=
  let rest := line.drop 6
  let ds := rest.takeWhile Char.isDigit
  if ds = [] then none
  else if rest.dropWhile Char.isDigit = str " AUDIO" then some (str "TRACK", ds)
  else none

/-- Regex `^(INDEX) ([0-9]+) ([0-9:]{8,11})$` (group 3 is validated but
discarded, as the INDEX line itself is skipped). -/
def indexMatch (line : Str) : Option (Str × Str) :=
  let rest := line.drop 6
  let ds := rest.takeWhile Char.isDigit
  match rest.dropWhile Char.isDigit with
  | ' ' :: t =>
    if ds ≠ [] ∧ t.all (fun c => c.isDigit || c == ':') ∧ 8 ≤ t.length ∧ t.length ≤ 11
    then some (str "INDEX", ds) else none
  | _ => none

/-- Regex `^([A-Z]+) (.+)$` for generic directives. -/
def genericMatch (line : Str) : Option (Str × Str) :=
  let k := line.takeWhile Char.isUpper
  match line.dropWhile Char.isUpper with
  | ' ' :: v => if k = [] ∨ v = [] then none else some (k, v)
  | _ => none

/-- Line classification by literal prefix (split.py lines 243-258), returning
the key and the raw second regex group, or `none` when the mandated pattern
fails to match (the source's `assert ... m is not None`). -/
def lineKV (line : Str) : Option (Str × Str) :=
  if line.take 4 = str "REM " then remMatch line
  else if line.take 5 = str "FILE " then fileMatch line
  else if line.take 6 = str "TRACK " then trackMatch line
  else if line.take 6 = str "INDEX " then indexMatch line
  else genericMatch line

/-! ## parse_cue: the line-by-line state machine -/

inductive PErr
  | grammar (line : Str)
  | seq
  | noTitle
deriving DecidableEq

/-- Which record `current_dict` aliases: the disc dict or the last track. -/
inductive Tgt
  | disc
  | trk
deriving DecidableEq

structure PState where
  disc : Dict
  tracks : List Dict
  cur : Tgt
deriving DecidableEq

/-- Apply `f` to the last element of a list (mutation through the
`current_dict` alias when it points at the newest track). -/
def updateLast (f : Dict → Dict) : List Dict → List Dict
  | [] => []
  | [d] => [f d]
  | d :: ds => d :: updateLast f ds

/-- Write through `current_dict`. -/
def writeCur (st : PState) (f : Dict → Dict) : PState :=
  match st.cur with
  | .disc => { st with disc := f st.disc }
  | .trk => { st with tracks := updateLast f st.tracks }

/-- The value of a classified line after the disc-level performer override
(split.py lines 260-264): `val = unquote(m[2], strip=True)`, replaced by the
override when the key is PERFORMER and no track exists yet. -/
def ovVal (ov : Option Str) (st : PState) (key m2 : Str) : Str :=
  match ov with
  | some o => if key = str "PERFORMER" ∧ st.tracks.length = 0 then o else unquote m2 true
  | none => unquote m2 true

/-- Handling of one classified line `(key, m2)` (split.py lines 260-286):
performer override, empty-value skip, INDEX skip, TRACK creation with
sequential-number check, TITLE double store, generic store. -/
def stepKV (ov : Option Str) (st : PState) (key m2 : Str) : Except PErr PState :=
  if ovVal ov st key m2 = [] then .ok st
  else if key = str "INDEX" then .ok st
  else if key = str "TRACK" then
    if toNatDigits (ovVal ov st key m2) = st.tracks.length + 1 then
      .ok { disc := st.disc, tracks := st.tracks ++ [derase st.disc (str "TITLE")], cur := .trk }
    else .error .seq
  else if key = str "TITLE" then
    .ok (writeCur st fun d =>
      dset (dset d (str "TITLE") (ovVal ov st key m2)) (str "TITLE_RAW") (unquote m2 false))
  else .ok (writeCur st fun d => dset d key (ovVal ov st key m2))

/-- One iteration of the `for line in cue_content.split("\n")` loop. -/
def step (ov : Option Str) (st : PState) (line0 : Str) : Except PErr PState :=
  if pyStrip line0 = [] then .ok st
  else
    match lineKV (pyStrip line0) with
    | none => .error (.grammar (pyStrip line0))
    | some (key, m2) => stepKV ov st key m2

def initState : PState := ⟨[], [], .disc⟩

/-- Run the parse loop over all lines. -/
def runLines (ov : Option Str) : PState → List Str → Except PErr PState
  | st, [] => .ok st
  | st, l :: ls =>
    match step ov st l with
    | .ok st' => runLines ov st' ls
    | .error e => .error e

/-- Finalization check: every track has a TITLE (split.py lines 289-290). -/
def checkTitles (ts : List Dict) : Bool :=
  ts.all fun t => (dget? t (str "TITLE")).isSome

/-- The returned dict: the source stores the track list in the disc dict
under the reserved key `"TRACK_LIST"`; as that value is a list rather than a
string it is modelled as a separate field of the result. -/
structure CueResult where
  fields : Dict
  trackList : List Dict
deriving DecidableEq

/-- `parse_cue(cue_content)` (split.py lines 214-293), with the disc-level
performer override flag as the `ov` argument. -/
def parseCue (ov : Option Str) (content : Str) : Except PErr CueResult :=
  match runLines ov initState (splitCh '\n' content) with
  | .error e => .error e
  | .ok st => if checkTitles st.tracks then .ok ⟨st.disc, st.tracks⟩ else .error .noTitle

/-! ## Filesystem model for the resolution procedures -/

/-- One filesystem object: its full path and whether it is a regular file
(`Path.is_file()`); `Path.resolve()` is the identity in this model (all paths
are already written out in full). -/
structure FSEnt where
  path : Str
  isFile : Bool
deriving DecidableEq

/-- A filesystem snapshot; list order is directory enumeration order
(`Path.iterdir()`). -/
abbrev FS := List FSEnt

/-- `Path(p).is_file()`. -/
def isFile (fs : FS) (p : Str) : Bool :=
  fs.any fun e => e.path == p && e.isFile

/-- Path joining `dir / name`. -/
def pjoin (d n : Str) : Str := d ++ '/' :: n

/-- `Path(p).parent`: drop the last `/`-separated component. -/
def parent (p : Str) : Str :=
  ((p.reverse.dropWhile (fun c => !(c == '/'))).drop 1).reverse

/-- A directory entry as seen by `iterdir()`: final name component and
file-ness. -/
structure DirEnt where
  name : Str
  isFile : Bool
deriving DecidableEq

/-- The final name component of a path relative to directory `d`, when the
path is a direct child of `d`. -/
def childName (d p : Str) : Option Str :=
  if p.take (d.length + 1) = d ++ ['/'] then
    let n := p.drop (d.length + 1)
    if n ≠ [] ∧ !n.any (fun c => c == '/') then some n else none
  else none

/-- `Path(d).iterdir()` in enumeration order. -/
def childEnts (fs : FS) (d : Str) : List DirEnt :=
  fs.filterMap fun e => (childName d e.path).map fun n => ⟨n, e.isFile⟩

/-- `PurePath.suffix` (CPython): the part of the name from its last dot,
when that dot is neither the first nor the last character. -/
def pathSuffix (n : Str) : Str :=
  match n.reverse.dropWhile (fun c => !(c == '.')) with
  | '.' :: restRev =>
    if restRev = [] ∨ (n.reverse.takeWhile (fun c => !(c == '.'))) = [] then []
    else '.' :: (n.reverse.takeWhile (fun c => !(c == '.'))).reverse
  | _ => []

/-- Membership of a model string in a list of model strings. -/
def memStr (x : Str) (l : List Str) : Bool :=
  l.any fun s => s == x

/-! ## determine_cue (split.py lines 91-109) -/

inductive CueErr
  | noInput
  | noneFound
  | invalidFlag
deriving DecidableEq

/-- The non-recursive `.cue` scan of the root directory: files among the
direct children whose lowercased suffix is `.cue`, as full paths. -/
def cueFiles (fs : FS) (r : Str) : List Str :=
  (childEnts fs r).filterMap fun e =>
    if e.isFile && asciiLower (pathSuffix e.name) == str ".cue"
    then some (pjoin r e.name) else none

/-- `determine_cue(rootdir)` with the `--cue` flag as `cueFlag`; in the
flag-without-root case Python resolves the flag against the process working
directory, modelled as a direct filesystem query on the flag path. -/
def determineCue (fs : FS) (cueFlag : Option Str) (rootdir : Option Str) :
    Except CueErr Str :=
  match cueFlag with
  | none =>
    match rootdir with
    | none => .error .noInput
    | some r =>
      match cueFiles fs r with
      | [] => .error .noneFound
      | c :: _ => .ok c
  | some c =>
    match rootdir with
    | some r => if isFile fs (pjoin r c) then .ok (pjoin r c) else .error .invalidFlag
    | none => if isFile fs c then .ok c else .error .invalidFlag

/-! ## determine_wav (split.py lines 112-148) -/

inductive WavErr
  /-- `raise "Invalid --wav file."` -/
  | invalidFlag
  /-- the uncaught `KeyError` of `cue_dict["FILE"]` -/
  | keyErr
  /-- `raise "Unable to determine audio file: " + str(wavs)` -/
  | ambiguous
  /-- `raise "Unable to determine audio file: "` after all steps fail -/
  | notFound
deriving DecidableEq

def AUDIO_SUFFIX : List Str := [str ".wav", str ".ape", str ".flac", str ".tta"]

/-- Scan of a directory for files with a recognized audio suffix, as full
paths in enumeration order. -/
def audioIn (fs : FS) (d : Str) : List Str :=
  (childEnts fs d).filterMap fun e =>
    if e.isFile && memStr (asciiLower (pathSuffix e.name)) AUDIO_SUFFIX
    then some (pjoin d e.name) else none

/-- Steps (6)/(7) of the audio search: a directory scan requiring at most one
candidate, falling through to `k` when the scan is empty. -/
def audioScan (fs : FS) (d : Str) (k : Except WavErr Str) : Except WavErr Str :=
  match audioIn fs d with
  | [] => k
  | [w] => .ok w
  | _ :: _ :: _ => .error .ambiguous

/-- `determine_wav(rootdir, cue_path, cue_dict)` with the `--wav` flag as
`wavFlag`.  With no flag, the declared-filename steps read
`cue_dict["FILE"]` unconditionally: a missing key is the uncaught
`KeyError`, modelled as `WavErr.keyErr`. -/
def determineWav (fs : FS) (wavFlag : Option Str) (rootdir : Option Str)
    (cuePath : Str) (cueDict : Dict) : Except WavErr Str :=
  match wavFlag with
  | some w =>
    match rootdir with
    | some r =>
      if isFile fs (pjoin r w) then .ok (pjoin r w)
      else if isFile fs w then .ok w
      else if isFile fs (pjoin (parent cuePath) w) then .ok (pjoin (parent cuePath) w)
      else .error .invalidFlag
    | none =>
      if isFile fs w then .ok w
      else if isFile fs (pjoin (parent cuePath) w) then .ok (pjoin (parent cuePath) w)
      else .error .invalidFlag
  | none =>
    match rootdir with
    | some r =>
      match dget? cueDict (str "FILE") with
      | none => .error .keyErr
      | some fv =>
        if isFile fs (pjoin r fv) then .ok (pjoin r fv)
        else if isFile fs (pjoin (parent cuePath) fv) then .ok (pjoin (parent cuePath) fv)
        else audioScan fs r (audioScan fs (parent cuePath) (.error .notFound))
    | none =>
      match dget? cueDict (str "FILE") with
      | none => .error .keyErr
      | some fv =>
        if isFile fs (pjoin (parent cuePath) fv) then .ok (pjoin (parent cuePath) fv)
        else audioScan fs (parent cuePath) (.error .notFound)

/-! ## determine_cover (split.py lines 151-190) -/

inductive CoverErr
  /-- `raise "Invalid --cover file."` -/
  | invalidFlag
deriving DecidableEq

def COVER_SUFFIX : List Str := [str ".jpg", str ".png", str ".tif", str ".tiff"]

/-- `PRIORITY_COVER_NAMES`: `{cover, folder}` crossed with the image
extensions, in the source's comprehension order. -/
def PRIORITY_COVER_NAMES : List Str :=
  [str "cover", str "folder"].flatMap fun n => COVER_SUFFIX.map fun e => n ++ e

/-- `x.name.lower() in PRIORITY_COVER_NAMES`. -/
def isPriorityName (n : Str) : Bool :=
  memStr (asciiLower n) PRIORITY_COVER_NAMES

/-- `x.suffix.lower() in COVER_SUFFIX`. -/
def isImg (n : Str) : Bool :=
  memStr (asciiLower (pathSuffix n)) COVER_SUFFIX

/-- One directory loop of the no-flag cover search: return the first
priority-named file immediately, collecting generic image candidates along
the way. -/
def scanDir (dir : Str) : List DirEnt → Option Str × List Str
  | [] => (none, [])
  | e :: es =>
    if e.isFile then
      if isPriorityName e.name then (some (pjoin dir e.name), [])
      else if isImg e.name then
        let r := scanDir dir es
        (r.1, pjoin dir e.name :: r.2)
      else scanDir dir es
    else scanDir dir es

/-- `len(pics) > 1` natural sort and first pick; the external `natsorted`
call (keyed on lowercased stems) is a parameter of the model. -/
def pickPics (nsort : List Str → List Str) (pics : List Str) : Option Str :=
  (if pics.length > 1 then nsort pics else pics).head?

/-- The no-flag branch of `determine_cover` (split.py lines 169-190): scan
the root directory (when present); only if that collected no generic
candidates, also scan the sheet's directory; a priority-named file anywhere
returns immediately. -/
def coverSearch (nsort : List Str → List Str) (root? : Option (Str × List DirEnt))
    (cueDir : Str) (cueList : List DirEnt) : Option Str :=
  match root? with
  | some (rd, rl) =>
    match scanDir rd rl with
    | (some p, _) => some p
    | (none, pics) =>
      if pics.isEmpty then
        match scanDir cueDir cueList with
        | (some p, _) => some p
        | (none, pics2) => pickPics nsort pics2
      else pickPics nsort pics
  | none =>
    match scanDir cueDir cueList with
    | (some p, _) => some p
    | (none, pics2) => pickPics nsort pics2

/-- `determine_cover(rootdir, cue_path)` with the `--cover` flag as
`coverFlag` (`some []` is the explicit empty string that disables the
cover). -/
def determineCover (nsort : List Str → List Str) (fs : FS)
    (coverFlag : Option Str) (rootdir : Option Str) (cuePath : Str) :
    Except CoverErr (Option Str) :=
  match coverFlag with
  | some c =>
    if c = [] then .ok none
    else
      match rootdir with
      | some r =>
        if isFile fs (pjoin r c) then .ok (some (pjoin r c))
        else if isFile fs c then .ok (some c)
        else if isFile fs (pjoin (parent cuePath) c) then .ok (some (pjoin (parent cuePath) c))
        else .error .invalidFlag
      | none =>
        if isFile fs c then .ok (some c)
        else if isFile fs (pjoin (parent cuePath) c) then .ok (some (pjoin (parent cuePath) c))
        else .error .invalidFlag
  | none =>
    .ok (coverSearch nsort (rootdir.map fun r => (r, childEnts fs r))
          (parent cuePath) (childEnts fs (parent cuePath)))

/-! ## Helper lemmas -/

theorem dget_dset_ne (k v k' : Str) (h : k' ≠ k) :
    ∀ d : Dict, dget? (dset d k v) k' = dget? d k' := by
  intro d
  induction d with
  | nil =>
    simp only [dset, dget?]
    rw [if_neg fun hh => h hh.symm]
  | cons p rest ih =>
    obtain ⟨k0, v0⟩ := p
    by_cases h0 : k0 = k
    · simp only [dset, if_pos h0, dget?]
      rw [if_neg fun hh => h (hh.symm.trans h0), if_neg fun hh => h (hh.symm.trans h0)]
    · simp only [dset, if_neg h0, dget?]
      by_cases h1 : k0 = k'
      · rw [if_pos h1, if_pos h1]
      · rw [if_neg h1, if_neg h1]
        exact ih

theorem dget_derase_ne (k k' : Str) (h : k' ≠ k) :
    ∀ d : Dict, dget? (derase d k) k' = dget? d k' := by
  intro d
  induction d with
  | nil => rfl
  | cons p rest ih =>
    obtain ⟨k0, v0⟩ := p
    by_cases h0 : k0 = k
    · simp only [derase, if_pos h0, dget?]
      rw [if_neg fun hh => h (hh.symm.trans h0)]
      exact ih
    · simp only [derase, if_neg h0, dget?]
      by_cases h1 : k0 = k'
      · rw [if_pos h1, if_pos h1]
      · rw [if_neg h1, if_neg h1]
        exact ih

theorem updateLast_length (f : Dict → Dict) :
    ∀ ts : List Dict, (updateLast f ts).length = ts.length := by
  intro ts
  induction ts with
  | nil => rfl
  | cons d ds ih =>
    cases ds with
    | nil => rfl
    | cons e es =>
      show (d :: updateLast f (e :: es)).length = (d :: e :: es).length
      simp only [List.length_cons]
      exact congrArg (· + 1) ih

theorem updateLast_cons_shape (f : Dict → Dict) (e : Dict) (es : List Dict) :
    ∃ x xs, updateLast f (e :: es) = x :: xs := by
  cases es with
  | nil => exact ⟨f e, [], rfl⟩
  | cons g gs => exact ⟨e, updateLast f (g :: gs), rfl⟩

theorem updateLast_dropLast (f : Dict → Dict) :
    ∀ ts : List Dict, (updateLast f ts).dropLast = ts.dropLast := by
  intro ts
  induction ts with
  | nil => rfl
  | cons d ds ih =>
    cases ds with
    | nil => rfl
    | cons e es =>
      show (d :: updateLast f (e :: es)).dropLast = (d :: e :: es).dropLast
      obtain ⟨x, xs, hx⟩ := updateLast_cons_shape f e es
      rw [hx] at ih ⊢
      show d :: (x :: xs).dropLast = d :: (e :: es).dropLast
      rw [ih]

theorem pyWS_false_of_digit (c : Char) (h : c.isDigit = true) : pyWS c = false := by
  by_contra hw
  rw [Bool.not_eq_false] at hw
  simp only [pyWS, Bool.or_eq_true, beq_iff_eq] at hw
  rcases hw with ((((rfl | rfl) | rfl) | rfl) | rfl) | rfl <;> revert h <;> decide

theorem pyStrip_of_nonws (l : Str) (h : ∀ c ∈ l, pyWS c = false) : pyStrip l = l := by
  unfold pyStrip
  cases l with
  | nil => rfl
  | cons a as =>
    rw [List.dropWhile_cons, h a (List.mem_cons_self a as)]
    simp only [Bool.false_eq_true, if_false]
    cases hr : (a :: as).reverse with
    | nil => exact absurd hr (by simp)
    | cons b bs =>
      have hb : b ∈ a :: as := by
        rw [← List.mem_reverse, hr]
        exact List.mem_cons_self b bs
      rw [List.dropWhile_cons, h b hb]
      simp only [Bool.false_eq_true, if_false]
      rw [← hr, List.reverse_reverse]

theorem pyStrip_ends (a b : Char) (m : Str) (ha : pyWS a = false) (hb : pyWS b = false) :
    pyStrip (a :: (m ++ [b])) = a :: (m ++ [b]) := by
  unfold pyStrip
  rw [List.dropWhile_cons, ha]
  simp only [Bool.false_eq_true, if_false]
  have hrev : (a :: (m ++ [b])).reverse = b :: (m.reverse ++ [a]) := by
    simp [List.reverse_cons, List.reverse_append]
  rw [hrev, List.dropWhile_cons, hb]
  simp only [Bool.false_eq_true, if_false]
  rw [← hrev, List.reverse_reverse]

theorem unquote_digits (d : Str) (hne : d ≠ []) (hd : d.all Char.isDigit = true) :
    unquote d true = d := by
  have hnws : ∀ c ∈ d, pyWS c = false := by
    intro c hc
    exact pyWS_false_of_digit c (List.all_eq_true.mp hd c hc)
  have hstrip : pyStrip d = d := pyStrip_of_nonws d hnws
  have hcond : ¬(2 ≤ (pyStrip d).length ∧ (pyStrip d).head? = some '"' ∧
      (pyStrip d).getLast? = some '"') := by
    rintro ⟨-, h2, -⟩
    rw [hstrip] at h2
    cases d with
    | nil => exact hne rfl
    | cons c cs =>
      simp only [List.head?, Option.some.injEq] at h2
      subst h2
      exact absurd (List.all_eq_true.mp hd '"' (List.mem_cons_self _ _)) (by decide)
  unfold unquote
  rw [if_neg hcond, if_pos rfl]
  exact hstrip

theorem ovVal_non_performer (ov : Option Str) (st : PState) (key m2 : Str)
    (h : key ≠ str "PERFORMER") : ovVal ov st key m2 = unquote m2 true := by
  cases ov with
  | none => rfl
  | some o =>
    simp only [ovVal]
    rw [if_neg fun hh => h hh.1]

theorem all_takeWhile (p : Char → Bool) : ∀ l : Str, ((l.takeWhile p).all p) = true := by
  intro l
  induction l with
  | nil => rfl
  | cons a as ih =>
    rw [List.takeWhile_cons]
    cases hp : p a with
    | false => rfl
    | true => simp [List.all_cons, hp, ih]

theorem remMatch_key (line k m : Str) (h : remMatch line = some (k, m)) :
    k = str "REM " ++ (line.drop 4).takeWhile isUpperUnd := by
  simp only [remMatch] at h
  split at h
  · split at h
    · exact absurd h (by simp)
    · simp only [Option.some.injEq, Prod.mk.injEq] at h
      exact h.1.symm
  · exact absurd h (by simp)

theorem fileMatch_key (line k m : Str) (h : fileMatch line = some (k, m)) :
    k = str "FILE" := by
  simp only [fileMatch] at h
  split at h
  · simp only [Option.some.injEq, Prod.mk.injEq] at h
    exact h.1.symm
  · split at h
    · simp only [Option.some.injEq, Prod.mk.injEq] at h
      exact h.1.symm
    · exact absurd h (by simp)

theorem trackMatch_key (line k m : Str) (h : trackMatch line = some (k, m)) :
    k = str "TRACK" ∧ m ≠ [] ∧ m.all Char.isDigit = true := by
  simp only [trackMatch] at h
  split at h
  · exact absurd h (by simp)
  · split at h
    · simp only [Option.some.injEq, Prod.mk.injEq] at h
      obtain ⟨h1, h2⟩ := h
      subst h1; subst h2
      refine ⟨rfl, by assumption, all_takeWhile Char.isDigit _⟩
    · exact absurd h (by simp)

theorem indexMatch_key (line k m : Str) (h : indexMatch line = some (k, m)) :
    k = str "INDEX" := by
  simp only [indexMatch] at h
  split at h
  · split at h
    · simp only [Option.some.injEq, Prod.mk.injEq] at h
      exact h.1.symm
    · exact absurd h (by simp)
  · exact absurd h (by simp)

theorem genericMatch_key (line k m : Str) (h : genericMatch line = some (k, m)) :
    k = line.takeWhile Char.isUpper := by
  simp only [genericMatch] at h
  split at h
  · split at h
    · exact absurd h (by simp)
    · simp only [Option.some.injEq, Prod.mk.injEq] at h
      exact h.1.symm
  · exact absurd h (by simp)

/-- No classifiable line yields the reserved key `"TRACK_LIST"`: REM keys
start with `REM `, the other fixed keys differ literally, and a generic key
is all uppercase letters while `TRACK_LIST` contains an underscore. -/
theorem lineKV_key_ne_tracklist (line k m : Str) (h : lineKV line = some (k, m)) :
    k ≠ str "TRACK_LIST" := by
  intro heq
  unfold lineKV at h
  split at h
  · have hk := remMatch_key line k m h
    rw [heq] at hk
    have h4 := congrArg (List.take 4) hk
    rw [show (str "REM " ++ (line.drop 4).takeWhile isUpperUnd).take 4 = str "REM " from rfl] at h4
    exact absurd h4 (by decide)
  · split at h
    · have hk := fileMatch_key line k m h
      rw [heq] at hk
      exact absurd hk (by decide)
    · split at h
      · have hk := (trackMatch_key line k m h).1
        rw [heq] at hk
        exact absurd hk (by decide)
      · split at h
        · have hk := indexMatch_key line k m h
          rw [heq] at hk
          exact absurd hk (by decide)
        · have hk := genericMatch_key line k m h
          have hall := all_takeWhile Char.isUpper line
          rw [← hk, heq] at hall
          exact absurd hall (by decide)

theorem stepKV_no_tracklist (ov : Option Str) (st : PState) (k m : Str) (st' : PState)
    (hk : k ≠ str "TRACK_LIST")
    (hd : dget? st.disc (str "TRACK_LIST") = none)
    (h : stepKV ov st k m = .ok st') :
    dget? st'.disc (str "TRACK_LIST") = none := by
  unfold stepKV at h
  split at h
  · injection h with h
    subst h
    exact hd
  · split at h
    · injection h with h
      subst h
      exact hd
    · split at h
      · split at h
        · injection h with h
          subst h
          exact hd
        · exact Except.noConfusion h
      · split at h
        · injection h with h
          subst h
          unfold writeCur
          cases hcur : st.cur with
          | disc =>
            show dget? (dset (dset st.disc (str "TITLE") _) (str "TITLE_RAW") _) (str "TRACK_LIST") = none
            rw [dget_dset_ne _ _ _ (by decide), dget_dset_ne _ _ _ (by decide)]
            exact hd
          | trk => exact hd
        · injection h with h
          subst h
          unfold writeCur
          cases hcur : st.cur with
          | disc =>
            show dget? (dset st.disc k _) (str "TRACK_LIST") = none
            rw [dget_dset_ne _ _ _ (Ne.symm hk)]
            exact hd
          | trk => exact hd

theorem step_no_tracklist (ov : Option Str) (st : PState) (l : Str) (st' : PState)
    (hd : dget? st.disc (str "TRACK_LIST") = none)
    (h : step ov st l = .ok st') :
    dget? st'.disc (str "TRACK_LIST") = none := by
  unfold step at h
  split at h
  · injection h with h
    subst h
    exact hd
  · split at h
    · exact Except.noConfusion h
    · next key m2 heq =>
      exact stepKV_no_tracklist ov st key m2 st'
        (lineKV_key_ne_tracklist _ key m2 heq) hd h

theorem runLines_no_tracklist (ov : Option Str) :
    ∀ (ls : List Str) (st st' : PState),
      dget? st.disc (str "TRACK_LIST") = none →
      runLines ov st ls = .ok st' →
      dget? st'.disc (str "TRACK_LIST") = none := by
  intro ls
  induction ls with
  | nil =>
    intro st st' hd h
    injection h with h
    subst h
    exact hd
  | cons l ls ih =>
    intro st st' hd h
    unfold runLines at h
    cases hs : step ov st l with
    | ok st1 =>
      rw [hs] at h
      exact ih st1 st' (step_no_tracklist ov st l st1 hd hs) h
    | error e =>
      rw [hs] at h
      exact Except.noConfusion h

theorem pairPermCases {α : Type} {l : List α} {a b : α} (h : l.Perm [a, b]) :
    l = [a, b] ∨ l = [b, a] := by
  have hlen : l.length = 2 := by simpa using h.length_eq
  cases l with
  | nil => simp at hlen
  | cons x t =>
    cases t with
    | nil => simp at hlen
    | cons y t2 =>
      cases t2 with
      | cons z t3 => simp at hlen
      | nil =>
        have hx : x ∈ [a, b] := h.subset (List.mem_cons_self x [y])
        rcases List.mem_cons.mp hx with rfl | hx2
        · left
          have h2 : [y].Perm [b] := h.cons_inv
          have : y ∈ [b] := h2.subset (List.mem_cons_self y [])
          rw [List.mem_singleton.mp this]
        · rcases List.mem_singleton.mp hx2 with rfl
          right
          have h1 : (x :: [y]).Perm [x, a] := h.trans (List.Perm.swap x a [])
          have h2 : [y].Perm [a] := h1.cons_inv
          have : y ∈ [a] := h2.subset (List.mem_cons_self y [])
          rw [List.mem_singleton.mp this]

/-! ## Claims -/

/-- C1, counterexample: a root directory holding the two sheet files
`a.cue` and `b.cue` does not make no-flag sheet resolution fail; it resolves
to the first file in enumeration order, refuting "for every root directory
containing two or more sheet-suffix files, resolution is an error". -/
theorem c1_counterexample :
    cueFiles [⟨str "/r/a.cue", true⟩, ⟨str "/r/b.cue", true⟩] (str "/r") =
      [str "/r/a.cue", str "/r/b.cue"] ∧
    determineCue [⟨str "/r/a.cue", true⟩, ⟨str "/r/b.cue", true⟩] none (some (str "/r")) =
      .ok (str "/r/a.cue") :=
  ⟨by decide, by decide⟩

/-- C1, amended: sheet-path resolution with no explicit sheet argument
requires a root directory and scans it non-recursively for files with the
sheet suffix; it fails when no such file exists, and when one or more exist
it returns the first one in directory-enumeration order (it does not fail on
multiple candidates). -/
theorem c1_amended :
    ∀ (fs : FS) (r : Str),
      determineCue fs none none = .error .noInput ∧
      (cueFiles fs r = [] → determineCue fs none (some r) = .error .noneFound) ∧
      (∀ c cs, cueFiles fs r = c :: cs → determineCue fs none (some r) = .ok c) := by
  intro fs r
  refine ⟨rfl, ?_, ?_⟩
  · intro h
    simp [determineCue, h]
  · intro c cs h
    simp [determineCue, h]

/-- C1, witness for the amended theorem. -/
theorem c1_amended_witness :
    determineCue [⟨str "/r/a.cue", true⟩, ⟨str "/r/b.cue", true⟩] none (some (str "/r")) =
      .ok (str "/r/a.cue") ∧
    determineCue ([] : FS) none (some (str "/r")) = .error .noneFound :=
  ⟨(c1_amended [⟨str "/r/a.cue", true⟩, ⟨str "/r/b.cue", true⟩] (str "/r")).2.2
      (str "/r/a.cue") [str "/r/b.cue"] (by decide),
   (c1_amended [] (str "/r")).2.1 rfl⟩

/-- C5, counterexample: on the malformed-quoted value `"abc ` the trim-mode
unquote returns the stripped `"abc`, not the input verbatim; and on
`"abc" ` (whose stripped form is fully quoted) even the raw mode returns the
de-quoted `abc`, so the claim "returns it verbatim, in both stripping modes"
is false. -/
theorem c5_counterexample :
    unquote (str "\"abc ") true ≠ str "\"abc " ∧
    unquote (str "\"abc\" ") false ≠ str "\"abc\" " :=
  ⟨by decide, by decide⟩

/-- C5, amended: for every value string whose whitespace-stripped form is
not enclosed in a matching pair of double quotes (in particular a stripped
form that starts with a quote but does not end with one), the unquoting
falls back to treating it as unquoted text: unquote-only mode returns the
string verbatim and trim mode returns its stripped form. -/
theorem c5_amended :
    ∀ s : Str,
      ¬(2 ≤ (pyStrip s).length ∧ (pyStrip s).head? = some '"' ∧
        (pyStrip s).getLast? = some '"') →
      unquote s false = s ∧ unquote s true = pyStrip s := by
  intro s h
  unfold unquote
  rw [if_neg h, if_neg h]
  exact ⟨rfl, rfl⟩

/-- C5, witness for the amended theorem at the malformed input `"abc `. -/
theorem c5_amended_witness :
    unquote (str "\"abc ") false = str "\"abc " ∧
    unquote (str "\"abc ") true = pyStrip (str "\"abc ") :=
  c5_amended (str "\"abc ") (by decide)

/-- C6, counterexample: in the sheet `TRACK 1 AUDIO` + `TITLE " "` the track
block does contain a TITLE line (classified as a TITLE directive, second
conjunct), yet its trim-and-unquote value is empty, the line is skipped, the
track record never receives TITLE, and finalization fails — refuting "for
every sheet in which each track block contains a TITLE line, finalization
succeeds". -/
theorem c6_counterexample :
    parseCue none (str "TRACK 1 AUDIO\nTITLE \" \"") = .error .noTitle ∧
    lineKV (pyStrip (str "TITLE \" \"")) = some (str "TITLE", str "\" \"") :=
  ⟨by decide, by decide⟩

/-- C6, amended: once all lines are consumed without error, finalization fails with
the missing-title error exactly when some created track record lacks a TITLE
field, and succeeds — returning the disc record with the track sequence
attached — when every track record has one. -/
theorem c6_finalize :
    ∀ (ov : Option Str) (content : Str) (st : PState),
      runLines ov initState (splitCh '\n' content) = .ok st →
      ((∃ t ∈ st.tracks, dget? t (str "TITLE") = none) →
        parseCue ov content = .error .noTitle) ∧
      ((∀ t ∈ st.tracks, (dget? t (str "TITLE")).isSome = true) →
        parseCue ov content = .ok ⟨st.disc, st.tracks⟩) := by
  intro ov content st h
  constructor
  · rintro ⟨t, ht, hnone⟩
    have hfalse : checkTitles st.tracks = false := by
      cases hc : checkTitles st.tracks with
      | false => rfl
      | true =>
        have := List.all_eq_true.mp hc t ht
        rw [hnone] at this
        exact absurd this (by decide)
    simp only [parseCue, h]
    rw [hfalse]
    rfl
  · intro hall
    have htrue : checkTitles st.tracks = true :=
      List.all_eq_true.mpr fun t ht => hall t ht
    simp only [parseCue, h]
    rw [htrue]
    rfl

/-- C6, witness: a track block without TITLE fails finalization; with TITLE
it succeeds and the track sequence is attached. -/
theorem c6_finalize_witness :
    parseCue none (str "TRACK 1 AUDIO") = .error .noTitle ∧
    parseCue none (str "TRACK 1 AUDIO\nTITLE A") =
      .ok ⟨[], [[(str "TITLE", str "A"), (str "TITLE_RAW", str "A")]]⟩ :=
  ⟨(c6_finalize none (str "TRACK 1 AUDIO") ⟨[], [[]], .trk⟩ (by decide)).1
      ⟨[], by decide⟩,
   (c6_finalize none (str "TRACK 1 AUDIO\nTITLE A")
      ⟨[], [[(str "TITLE", str "A"), (str "TITLE_RAW", str "A")]], .trk⟩ (by decide)).2
      (by decide)⟩

/-- C7: no classifiable sheet line can store a value under the reserved key
`TRACK_LIST`, and for every successful parse the disc-level mapping contains
no `TRACK_LIST` entry while the attached track sequence is exactly the
parser-built track list of the line-processing run. -/
theorem c7_tracklist_reserved :
    (∀ line k m, lineKV line = some (k, m) → k ≠ str "TRACK_LIST") ∧
    (∀ (ov : Option Str) (content : Str) (r : CueResult),
      parseCue ov content = .ok r →
      dget? r.fields (str "TRACK_LIST") = none ∧
      ∃ st, runLines ov initState (splitCh '\n' content) = .ok st ∧
            r.fields = st.disc ∧ r.trackList = st.tracks) := by
  constructor
  · exact lineKV_key_ne_tracklist
  · intro ov content r h
    unfold parseCue at h
    split at h
    · exact Except.noConfusion h
    · next st hrun =>
      split at h
      · injection h with h
        subst h
        exact ⟨runLines_no_tracklist ov _ initState st rfl hrun, st, hrun, rfl, rfl⟩
      · exact Except.noConfusion h

/-- C7, witness at a concrete one-line sheet. -/
theorem c7_witness :
    dget? (⟨[(str "PERFORMER", str "X")], []⟩ : CueResult).fields (str "TRACK_LIST") = none ∧
    ∃ st, runLines none initState (splitCh '\n' (str "PERFORMER X")) = .ok st ∧
      (⟨[(str "PERFORMER", str "X")], []⟩ : CueResult).fields = st.disc ∧
      (⟨[(str "PERFORMER", str "X")], []⟩ : CueResult).trackList = st.tracks :=
  c7_tracklist_reserved.2 none (str "PERFORMER X") ⟨[(str "PERFORMER", str "X")], []⟩ (by decide)

/-- C2: a sheet declaring tracks 1, 2, 3 parses to a 3-element track
sequence in declaration order; a sheet declaring 1 then 3 fails fatally; and
in general a TRACK directive whose digits do not equal the current number of
tracks plus one makes the parse step fail with the sequence error. -/
theorem c2_track_numbering :
    parseCue none (str "TRACK 1 AUDIO\nTITLE \"a\"\nTRACK 2 AUDIO\nTITLE \"b\"\nTRACK 3 AUDIO\nTITLE \"c\"") =
      .ok ⟨[], [[(str "TITLE", str "a"), (str "TITLE_RAW", str "a")],
                [(str "TITLE", str "b"), (str "TITLE_RAW", str "b")],
                [(str "TITLE", str "c"), (str "TITLE_RAW", str "c")]]⟩ ∧
    parseCue none (str "TRACK 1 AUDIO\nTITLE \"a\"\nTRACK 3 AUDIO\nTITLE \"b\"") =
      .error .seq ∧
    (∀ (ov : Option Str) (st : PState) (d : Str),
      d ≠ [] → d.all Char.isDigit = true →
      toNatDigits d ≠ st.tracks.length + 1 →
      stepKV ov st (str "TRACK") d = .error .seq) := by
  refine ⟨by decide, by decide, ?_⟩
  intro ov st d hne hdig hneq
  have hval : ovVal ov st (str "TRACK") d = d := by
    rw [ovVal_non_performer ov st _ d (by decide)]
    exact unquote_digits d hne hdig
  unfold stepKV
  rw [hval, if_neg hne, if_neg (by decide : ¬(str "TRACK" = str "INDEX")), if_pos rfl,
    if_neg hneq]

/-- C2, witness: declaring track 2 first (zero tracks so far) is the
sequence error. -/
theorem c2_witness :
    stepKV none ⟨[], [], .disc⟩ (str "TRACK") (str "2") = .error .seq :=
  c2_track_numbering.2.2 none ⟨[], [], .disc⟩ (str "2") (by decide) (by decide) (by decide)

/-- C3: once a track is the accumulation target, processing any classified
directive other than TRACK leaves the disc-level mapping and all tracks but
the last unchanged; concretely, disc PERFORMER "A", TRACK 01, PERFORMER "B"
yields track-1 performer "B" while the disc keeps "A" and track 2 inherits
"A". -/
theorem c3_frame :
    (∀ (ov : Option Str) (st : PState) (k m : Str) (st' : PState),
      st.cur = .trk → k ≠ str "TRACK" → stepKV ov st k m = .ok st' →
      st'.disc = st.disc ∧ st'.tracks.length = st.tracks.length ∧
      st'.tracks.dropLast = st.tracks.dropLast) ∧
    parseCue none (str "PERFORMER \"A\"\nTRACK 1 AUDIO\nPERFORMER \"B\"\nTITLE \"x\"\nTRACK 2 AUDIO\nTITLE \"y\"") =
      .ok ⟨[(str "PERFORMER", str "A")],
        [[(str "PERFORMER", str "B"), (str "TITLE", str "x"), (str "TITLE_RAW", str "x")],
         [(str "PERFORMER", str "A"), (str "TITLE", str "y"), (str "TITLE_RAW", str "y")]]⟩ := by
  refine ⟨?_, by decide⟩
  intro ov st k m st' hcur hk h
  unfold stepKV at h
  split at h
  · injection h with h
    subst h
    exact ⟨rfl, rfl, rfl⟩
  · split at h
    · injection h with h
      subst h
      exact ⟨rfl, rfl, rfl⟩
    · split at h
      · injection h with h
        subst h
        simp [writeCur, hcur, updateLast_length, updateLast_dropLast]
      · injection h with h
        subst h
        simp [writeCur, hcur, updateLast_length, updateLast_dropLast]

/-- C3, witness: a PERFORMER write into the current (last) track keeps the
disc mapping and the earlier tracks intact. -/
theorem c3_witness :
    (⟨[(str "PERFORMER", str "A")],
      [[(str "PERFORMER", str "A")], [(str "PERFORMER", str "B")]], Tgt.trk⟩ : PState).disc =
      (⟨[(str "PERFORMER", str "A")],
        [[(str "PERFORMER", str "A")], [(str "PERFORMER", str "A")]], Tgt.trk⟩ : PState).disc ∧
    (⟨[(str "PERFORMER", str "A")],
      [[(str "PERFORMER", str "A")], [(str "PERFORMER", str "B")]], Tgt.trk⟩ : PState).tracks.length =
      (⟨[(str "PERFORMER", str "A")],
        [[(str "PERFORMER", str "A")], [(str "PERFORMER", str "A")]], Tgt.trk⟩ : PState).tracks.length ∧
    (⟨[(str "PERFORMER", str "A")],
      [[(str "PERFORMER", str "A")], [(str "PERFORMER", str "B")]], Tgt.trk⟩ : PState).tracks.dropLast =
      (⟨[(str "PERFORMER", str "A")],
        [[(str "PERFORMER", str "A")], [(str "PERFORMER", str "A")]], Tgt.trk⟩ : PState).tracks.dropLast :=
  c3_frame.1 none
    ⟨[(str "PERFORMER", str "A")],
      [[(str "PERFORMER", str "A")], [(str "PERFORMER", str "A")]], Tgt.trk⟩
    (str "PERFORMER") (str "\"B\"") _ rfl (by decide) (by decide)

/-- C4, counterexample: the TITLE directive `TITLE " "` has a value enclosed
in matching double quotes, yet the parser stores nothing at all (the
trim-and-unquote result is empty, so the line is skipped), refuting the
claim for every quoted TITLE directive. -/
theorem c4_counterexample :
    parseCue none (str "TITLE \" \"") = .ok ⟨[], []⟩ ∧
    unquote (str "\" \"") true = [] :=
  ⟨by decide, by decide⟩

/-- C4, amended: for every quoted value the two stripping modes behave as
claimed — trim-and-unquote strips outside and inside the quotes, unquote-only
merely removes the quotes — and every TITLE directive whose trim-and-unquote
result is nonempty stores that result under TITLE and the unquote-only
result under TITLE_RAW; in particular value `"Song "` yields TITLE `Song`
and TITLE_RAW `Song `. -/
theorem c4_amended :
    (∀ inner : Str,
      unquote ('"' :: (inner ++ ['"'])) true = pyStrip inner ∧
      unquote ('"' :: (inner ++ ['"'])) false = inner) ∧
    (∀ (ov : Option Str) (st : PState) (m2 : Str),
      unquote m2 true ≠ [] →
      stepKV ov st (str "TITLE") m2 =
        .ok (writeCur st fun d =>
          dset (dset d (str "TITLE") (unquote m2 true)) (str "TITLE_RAW") (unquote m2 false))) ∧
    parseCue none (str "TITLE \"Song \"") =
      .ok ⟨[(str "TITLE", str "Song"), (str "TITLE_RAW", str "Song ")], []⟩ := by
  refine ⟨?_, ?_, by decide⟩
  · intro inner
    have hstrip : pyStrip ('"' :: (inner ++ ['"'])) = '"' :: (inner ++ ['"']) :=
      pyStrip_ends '"' '"' inner (by decide) (by decide)
    have hinner : (('"' :: (inner ++ ['"'])).drop 1).dropLast = inner := by
      show (inner ++ ['"']).dropLast = inner
      exact List.dropLast_concat
    have hcond : 2 ≤ (pyStrip ('"' :: (inner ++ ['"']))).length ∧
        (pyStrip ('"' :: (inner ++ ['"']))).head? = some '"' ∧
        (pyStrip ('"' :: (inner ++ ['"']))).getLast? = some '"' := by
      rw [hstrip]
      refine ⟨?_, rfl, ?_⟩
      · simp only [List.length_cons, List.length_append, List.length_singleton]
        omega
      · rw [show ('"' :: (inner ++ ['"'])) = ('"' :: inner) ++ ['"'] from by simp]
        exact List.getLast?_concat _
    constructor
    · unfold unquote
      rw [if_pos hcond, if_pos rfl, hstrip, hinner]
    · unfold unquote
      rw [if_pos hcond, if_neg (by decide : ¬(false = true)), hstrip, hinner]
  · intro ov st m2 hval
    have hov : ovVal ov st (str "TITLE") m2 = unquote m2 true :=
      ovVal_non_performer ov st _ m2 (by decide)
    unfold stepKV
    rw [hov, if_neg hval, if_neg (by decide : ¬(str "TITLE" = str "INDEX")),
      if_neg (by decide : ¬(str "TITLE" = str "TRACK")), if_pos rfl]

/-- C4, witness for the amended step-level statement at value `"Song "`. -/
theorem c4_amended_witness :
    stepKV none ⟨[], [], Tgt.disc⟩ (str "TITLE") (str "\"Song \"") =
      .ok (writeCur ⟨[], [], Tgt.disc⟩ fun d =>
        dset (dset d (str "TITLE") (unquote (str "\"Song \"") true))
          (str "TITLE_RAW") (unquote (str "\"Song \"") false)) :=
  c4_amended.2.1 none ⟨[], [], Tgt.disc⟩ (str "\"Song \"") (by decide)

/-- C8: in the no-flag cover scan a priority-named file is returned the
moment it is encountered (whatever follows it in the enumeration), and a
root directory holding exactly `random.png` and `folder.jpg` resolves to
`folder.jpg` in every enumeration order and for every behaviour of the
natural-sort tie-break; the third conjunct ties the scan to
`determine_cover` with no explicit argument. -/
theorem c8_cover_priority :
    (∀ (dir : Str) (l1 : List DirEnt) (e : DirEnt) (l2 : List DirEnt),
      e.isFile = true → isPriorityName e.name = true →
      (∀ y ∈ l1, y.isFile = true → isPriorityName y.name = false) →
      (scanDir dir (l1 ++ e :: l2)).1 = some (pjoin dir e.name)) ∧
    (∀ (nsort : List Str → List Str) (l : List DirEnt) (cd : Str) (cl : List DirEnt),
      l.Perm [⟨str "random.png", true⟩, ⟨str "folder.jpg", true⟩] →
      coverSearch nsort (some (str "/r", l)) cd cl = some (str "/r/folder.jpg")) ∧
    (∀ (nsort : List Str → List Str) (fs : FS) (rootdir : Option Str) (cuePath : Str),
      determineCover nsort fs none rootdir cuePath =
        .ok (coverSearch nsort (rootdir.map fun r => (r, childEnts fs r))
              (parent cuePath) (childEnts fs (parent cuePath)))) := by
  refine ⟨?_, ?_, fun nsort fs rootdir cuePath => rfl⟩
  · intro dir l1 e l2 hf hp
    induction l1 with
    | nil =>
      intro _
      simp [scanDir, hf, hp]
    | cons y ys ih =>
      intro hnone
      have htail : ∀ z ∈ ys, z.isFile = true → isPriorityName z.name = false :=
        fun z hz => hnone z (List.mem_cons_of_mem y hz)
      cases hyf : y.isFile with
      | false =>
        simp only [List.cons_append, scanDir, hyf, Bool.false_eq_true, if_false]
        exact ih htail
      | true =>
        have hpy : isPriorityName y.name = false := hnone y (List.mem_cons_self y ys) hyf
        cases himg : isImg y.name with
        | false =>
          simp only [List.cons_append, scanDir, hyf, hpy, himg, Bool.false_eq_true,
            if_false, if_true]
          exact ih htail
        | true =>
          simp only [List.cons_append, scanDir, hyf, hpy, himg, Bool.false_eq_true,
            if_false, if_true]
          exact ih htail
  · intro nsort l cd cl hperm
    rcases pairPermCases hperm with rfl | rfl
    · rfl
    · rfl

/-- C8, witness: immediate return of `folder.jpg` with nothing before it,
and resolution of the two-file directory in one concrete order. -/
theorem c8_witness :
    (scanDir (str "/r") ([] ++ (⟨str "folder.jpg", true⟩ : DirEnt) :: [])).1 =
      some (pjoin (str "/r") (str "folder.jpg")) ∧
    coverSearch id (some (str "/r",
        [⟨str "random.png", true⟩, ⟨str "folder.jpg", true⟩])) (str "/c") [] =
      some (str "/r/folder.jpg") :=
  ⟨c8_cover_priority.1 (str "/r") [] ⟨str "folder.jpg", true⟩ []
      (by decide) (by decide) (by simp),
   c8_cover_priority.2.1 id
      [⟨str "random.png", true⟩, ⟨str "folder.jpg", true⟩] (str "/c") [] (by decide)⟩

/-- C9: a TRACK directive appends exactly the disc mapping with only TITLE
removed (every other key, TITLE_RAW included, is inherited); concretely a
disc TITLE line leaves its TITLE_RAW in the new track until the track's own
TITLE line overwrites it. -/
theorem c9_inherit :
    (∀ (ov : Option Str) (st : PState) (d : Str) (st' : PState),
      d ≠ [] → d.all Char.isDigit = true →
      stepKV ov st (str "TRACK") d = .ok st' →
      st'.tracks = st.tracks ++ [derase st.disc (str "TITLE")] ∧
      ∀ k, k ≠ str "TITLE" →
        dget? (derase st.disc (str "TITLE")) k = dget? st.disc k) ∧
    runLines none initState [str "TITLE \"X \"", str "TRACK 1 AUDIO"] =
      .ok ⟨[(str "TITLE", str "X"), (str "TITLE_RAW", str "X ")],
        [[(str "TITLE_RAW", str "X ")]], .trk⟩ ∧
    runLines none initState [str "TITLE \"X \"", str "TRACK 1 AUDIO", str "TITLE Y"] =
      .ok ⟨[(str "TITLE", str "X"), (str "TITLE_RAW", str "X ")],
        [[(str "TITLE_RAW", str "Y"), (str "TITLE", str "Y")]], .trk⟩ := by
  refine ⟨?_, by decide, by decide⟩
  intro ov st d st' hne hdig h
  have hval : ovVal ov st (str "TRACK") d = d := by
    rw [ovVal_non_performer ov st _ d (by decide)]
    exact unquote_digits d hne hdig
  unfold stepKV at h
  rw [hval, if_neg hne, if_neg (by decide : ¬(str "TRACK" = str "INDEX")), if_pos rfl] at h
  by_cases hn : toNatDigits d = st.tracks.length + 1
  · rw [if_pos hn] at h
    injection h with h
    subst h
    exact ⟨rfl, fun k hk => dget_derase_ne (str "TITLE") k hk st.disc⟩
  · rw [if_neg hn] at h
    exact Except.noConfusion h

/-- C9, witness: the track created from a disc mapping with TITLE and
TITLE_RAW inherits only TITLE_RAW. -/
theorem c9_witness :
    (⟨[(str "TITLE", str "X"), (str "TITLE_RAW", str "X ")],
      [[(str "TITLE_RAW", str "X ")]], Tgt.trk⟩ : PState).tracks =
      ([] : List Dict) ++
        [derase [(str "TITLE", str "X"), (str "TITLE_RAW", str "X ")] (str "TITLE")] :=
  (c9_inherit.1 none
    ⟨[(str "TITLE", str "X"), (str "TITLE_RAW", str "X ")], [], Tgt.disc⟩
    (str "1") ⟨[(str "TITLE", str "X"), (str "TITLE_RAW", str "X ")],
      [[(str "TITLE_RAW", str "X ")]], Tgt.trk⟩
    (by decide) (by decide) (by decide)).1

/-- C10: with no explicit audio argument, the declared-filename steps of
audio resolution read the parsed metadata's FILE entry unconditionally: for
every parsed sheet without a FILE entry the resolution fails with the
uncaught key-lookup error, whatever the directories contain — even when
exactly one recognized audio file exists in the root directory (witness). -/
theorem c10_file_keyerror :
    ∀ (fs : FS) (rootdir : Option Str) (cuePath : Str) (cueDict : Dict),
      dget? cueDict (str "FILE") = none →
      determineWav fs none rootdir cuePath cueDict = .error .keyErr := by
  intro fs rootdir cuePath cueDict h
  cases rootdir with
  | none => simp [determineWav, h]
  | some r => simp [determineWav, h]

/-- C10, witness: the root directory holds exactly one recognized audio
file, yet resolution is the key-lookup error. -/
theorem c10_witness :
    audioIn [⟨str "/r/a.flac", true⟩] (str "/r") = [str "/r/a.flac"] ∧
    determineWav [⟨str "/r/a.flac", true⟩] none (some (str "/r")) (str "/r/x.cue") [] =
      .error .keyErr :=
  ⟨by decide, c10_file_keyerror _ _ _ _ rfl⟩

end DTS
